import Mathlib

/-!
Verification of the marker-candidate disambiguation and dictionary-search
pipeline of the `robotrumble-reborn-web` repository
(`src/aruco_detector.py`, `src/aruco_validator.py`).

The Python sources are shallowly embedded below:

* points and marker-corner quadrilaterals carry exact rational
  coordinates; the floating-point Euclidean norm (`np.linalg.norm`) and
  closed perimeter (`cv2.arcLength(c, True)`) are modelled over `ℝ`
  through `Real.sqrt`;
* the in-place boolean `keep` array of `filter_duplicate_detections` is
  modelled as a function `ℕ → Bool`, updated functionally; the nested
  `for` loops (with `continue`/`break`) become structural recursion over
  the index lists `range`/`range'`;
* the external primitive detector (`aruco.ArucoDetector.detectMarkers`
  composed with the duplicate filter, i.e. `detect_markers_with_params`)
  is an oracle parameter `detect : String → Option (List Cand)`; `none`
  models `ids is None`, `some cands` the filtered accepted candidates.
  The dictionary-scan functions additionally return the number of
  per-dictionary detector invocations (one per loop iteration), which is
  observable behaviour the specification talks about;
* the statistics accumulation of `aruco_validator.process_video` is a
  fold of the per-frame update over the list of per-frame detector
  outputs.
-/

namespace Aruco

/-- A planar point with exact rational coordinates (a row of a
`corners` array). -/
abbrev Point : Type := ℚ × ℚ

/-- The squared Euclidean distance between two points (the radicand of
`np.linalg.norm(centers[i] - centers[j])`). -/
def dist2 (p q : Point) : ℚ :=
  (p.1 - q.1) ^ 2 + (p.2 - q.2) ^ 2

/-- Euclidean distance, `np.linalg.norm(centers[i] - centers[j])`. -/
noncomputable def dist (p q : Point) : ℝ :=
  Real.sqrt ((dist2 p q : ℚ) : ℝ)

/-- An ordered quadrilateral of marker corners: `corner[0]` of one raw
candidate, a `(4, 2)` array of points. -/
structure Quad where
  p1 : Point
  p2 : Point
  p3 : Point
  p4 : Point
deriving DecidableEq

/-- One accepted candidate: its corner quadrilateral (`corners[i][0]`)
together with its decoded integer id (`ids[i]`). -/
structure Cand where
  corners : Quad
  id : ℤ
deriving DecidableEq

instance : Inhabited Cand :=
  ⟨⟨⟨(0, 0), (0, 0), (0, 0), (0, 0)⟩, 0⟩⟩

/-- Centroid of a candidate's quadrilateral:
`np.mean(corner[0], axis=0)`. -/
def centroid (q : Quad) : Point :=
  ((q.p1.1 + q.p2.1 + q.p3.1 + q.p4.1) / 4,
   (q.p1.2 + q.p2.2 + q.p3.2 + q.p4.2) / 4)

/-- Closed-polygon perimeter of a quadrilateral:
`cv2.arcLength(corners[i][0], True)`, the sum of the four side
lengths. -/
noncomputable def arcLength (q : Quad) : ℝ :=
  dist q.p1 q.p2 + dist q.p2 q.p3 + dist q.p3 q.p4 + dist q.p4 q.p1

/-- `keep[j] = False`: functional update of the boolean keep array. -/
def discard (keep : ℕ → Bool) (j : ℕ) : ℕ → Bool :=
  fun k => if k = j then false else keep k

/-- The inner loop `for j in range(i + 1, len(ids))` of
`filter_duplicate_detections`: skips already-discarded `j`, and when the
centroids of `i` and `j` are closer than `min_distance` either discards
`j` (strictly larger perimeter at `i`, loop continues) or discards `i`
and breaks. -/
noncomputable def innerLoop (min_distance : ℚ) (cands : List Cand) (i : ℕ) :
    List ℕ → (ℕ → Bool) → (ℕ → Bool)
  | [], keep => keep
  | j :: js, keep =>
    if keep j = false then
      innerLoop min_distance cands i js keep
    else if dist (centroid (cands.getD i default).corners)
        (centroid (cands.getD j default).corners) < (min_distance : ℝ) then
      if arcLength (cands.getD i default).corners >
          arcLength (cands.getD j default).corners then
        innerLoop min_distance cands i js (discard keep j)
      else
        discard keep i
    else
      innerLoop min_distance cands i js keep

/-- The outer loop `for i in range(len(ids))` of
`filter_duplicate_detections`: skips already-discarded `i`, otherwise
runs the inner loop over `range(i + 1, len(ids))`. -/
noncomputable def outerLoop (min_distance : ℚ) (cands : List Cand) :
    List ℕ → (ℕ → Bool) → (ℕ → Bool)
  | [], keep => keep
  | i :: rest, keep =>
    if keep i = false then
      outerLoop min_distance cands rest keep
    else
      outerLoop min_distance cands rest
        (innerLoop min_distance cands i
          (List.range' (i + 1) (cands.length - (i + 1))) keep)

/-- The final state of the `keep` array after both loops of
`filter_duplicate_detections` (initially all `True`). -/
noncomputable def keepFinal (cands : List Cand) (min_distance : ℚ) : ℕ → Bool :=
  outerLoop min_distance cands (List.range cands.length) (fun _ => true)

/-- The final list comprehension
`[corners[i] for i in range(len(corners)) if keep[i]]` (the ids are
filtered by the same mask, so one traversal of the candidate list
suffices). -/
def filterIdx {α : Type} (keep : ℕ → Bool) : ℕ → List α → List α
  | _, [] => []
  | k, a :: l =>
    if keep k then a :: filterIdx keep (k + 1) l else filterIdx keep (k + 1) l

/-- `filter_duplicate_detections(corners, ids, min_distance)` from
`src/aruco_detector.py`: returns the input unchanged when there are no
accepted candidates, otherwise removes near-duplicates via the greedy
nested-loop pass. -/
noncomputable def filter_duplicate_detections
    (cands : List Cand) (min_distance : ℚ) : List Cand :=
  if cands.length = 0 then cands
  else filterIdx (keepFinal cands min_distance) 0 cands

/-- The detector-parameter record built by
`calculate_detection_parameters` (only the fields the function sets). -/
structure DetectionParameters where
  adaptiveThreshWinSizeMin : ℤ
  adaptiveThreshWinSizeMax : ℤ
  adaptiveThreshWinSizeStep : ℤ
  adaptiveThreshConstant : ℚ
  minMarkerPerimeterRate : ℚ
  maxMarkerPerimeterRate : ℚ
  polygonalApproxAccuracyRate : ℚ
  minCornerDistanceRate : ℚ
  minMarkerDistanceRate : ℚ
  minDistanceToBorder : ℤ
  perspectiveRemovePixelPerCell : ℤ
  perspectiveRemoveIgnoredMarginPerCell : ℚ
  errorCorrectionRate : ℚ
  minOtsuStdDev : ℚ
deriving DecidableEq

/-- `calculate_detection_parameters(frame_width, frame_height)` from
`src/aruco_detector.py`.  Python's `int(x)` on the positive products is
truncation, i.e. the floor `⌊x⌋`; `//` is integer floor division (the
dividend `base_window_size` is at least `7`, so Lean's `ℤ` division
agrees). -/
def calculate_detection_parameters
    (frame_width frame_height : ℕ) : DetectionParameters :=
  let min_marker_perimeter : ℚ :=
    ((min frame_width frame_height : ℕ) : ℚ) * 0.03
  let base_window_size : ℤ :=
    max 7 ⌊((min frame_width frame_height : ℕ) : ℚ) * 0.01⌋
  { adaptiveThreshWinSizeMin := base_window_size
    adaptiveThreshWinSizeMax := base_window_size * 3
    adaptiveThreshWinSizeStep := max 2 (base_window_size / 3)
    adaptiveThreshConstant := 7
    minMarkerPerimeterRate := 0.03
    maxMarkerPerimeterRate := 0.3
    polygonalApproxAccuracyRate := 0.03
    minCornerDistanceRate := 0.05
    minMarkerDistanceRate := 0.1
    minDistanceToBorder := max 3 ⌊min_marker_perimeter * 0.02⌋
    perspectiveRemovePixelPerCell := 8
    perspectiveRemoveIgnoredMarginPerCell := 0.4
    errorCorrectionRate := 0.6
    minOtsuStdDev := 5.0 }

/-- `str.split('_')` on the character list of a name (Python semantics:
splitting the empty string yields `[""]`, separators at the ends yield
empty parts). -/
def splitOnChar (sep : Char) : List Char → List (List Char)
  | [] => [[]]
  | c :: cs =>
    let r := splitOnChar sep cs
    if c = sep then [] :: r
    else
      match r with
      | [] => [[c]]
      | t :: ts => (c :: t) :: ts

/-- `int(c)` for a single character: its digit value, failing on a
non-digit (Python raises `ValueError`). -/
def charDigit (c : Char) : Option ℕ :=
  if c.isDigit then some (c.toNat - 48) else none

/-- `int(s)` for a token: the decimal value of a non-empty all-digit
string, failing otherwise (Python raises `ValueError`). -/
def parseNatDigits (s : List Char) : Option ℕ :=
  if s ≠ [] ∧ s.all Char.isDigit then
    some (s.foldl (fun acc c => acc * 10 + (c.toNat - 48)) 0)
  else none

/-- `get_dictionary_info(dict_name)` from `src/aruco_detector.py`:
the legacy name maps to the hard-coded pair `(6, 1024)`; otherwise the
name is split on `_`, the grid size is the digit value of the first
character of `parts[1]` and the count is `int(parts[2])`.  Failures of
the Python indexing / `int` conversions are modelled by `none`. -/
def get_dictionary_info (dict_name : String) : Option (ℕ × ℕ) :=
  if dict_name = "DICT_ARUCO_ORIGINAL" then some (6, 1024)
  else
    match splitOnChar '_' dict_name.data with
    | _ :: p1 :: p2 :: _ =>
      match p1 with
      | [] => none
      | c :: _ =>
        match charDigit c, parseNatDigits p2 with
        | some size, some count => some (size, count)
        | _, _ => none
    | _ => none

/-- The per-dictionary hit test of the scan loops:
`ids is not None and len(ids) > 0` applied to an oracle outcome. -/
def hitB : Option (List Cand) → Bool
  | some cands => decide (0 < cands.length)
  | none => false

/-- `find_first_marker(frame, dictionaries)` from
`src/aruco_detector.py`, with the per-dictionary detection
(`detect_markers_with_params`, i.e. the external primitive detector
composed with the duplicate filter) abstracted as the oracle `detect`.
Returns the number of detector invocations together with the result:
`some (dict_name, cands)` for the first dictionary whose filtered
accepted set is non-empty, `none` (the all-`None` tuple) otherwise. -/
def find_first_marker (detect : String → Option (List Cand)) :
    List String → ℕ × Option (String × List Cand)
  | [] => (0, none)
  | dict_name :: rest =>
    match detect dict_name with
    | some cands =>
      if 0 < cands.length then (1, some (dict_name, cands))
      else
        let p := find_first_marker detect rest
        (p.1 + 1, p.2)
    | none =>
      let p := find_first_marker detect rest
      (p.1 + 1, p.2)

/-- `test_all_dictionaries(frame, dictionaries)` from
`src/aruco_detector.py`, with the per-dictionary detection abstracted
as the oracle `detect` (the debug visualisation frames it also builds
are out of scope).  Returns the number of detector invocations together
with the result list: one `(dict_name, cands)` entry per dictionary
whose filtered accepted set is non-empty, in input order. -/
def test_all_dictionaries (detect : String → Option (List Cand)) :
    List String → ℕ × List (String × List Cand)
  | [] => (0, [])
  | dict_name :: rest =>
    let r := detect dict_name
    let p := test_all_dictionaries detect rest
    match r with
    | some cands =>
      if 0 < cands.length then (p.1 + 1, (dict_name, cands) :: p.2)
      else (p.1 + 1, p.2)
    | none => (p.1 + 1, p.2)

/-- The session summary dictionary of `aruco_validator.process_video`
(`stats["summary"]`). -/
structure SessionSummary where
  total_frames : ℕ
  frames_with_markers : ℕ
  total_markers_detected : ℕ
  marker_ids_found : Finset ℤ
deriving DecidableEq

/-- One iteration of the statistics update in the frame loop of
`aruco_validator.process_video`: the frame counter always advances,
and when `ids is not None` the marker counters grow and the id set is
updated with the frame's ids. -/
def observe (s : SessionSummary) (ids : Option (List ℤ)) : SessionSummary :=
  match ids with
  | some l =>
    { total_frames := s.total_frames + 1
      frames_with_markers := s.frames_with_markers + 1
      total_markers_detected := s.total_markers_detected + l.length
      marker_ids_found := s.marker_ids_found ∪ l.toFinset }
  | none =>
    { s with total_frames := s.total_frames + 1 }

/-- The number of accepted markers a frame contributes
(`len(ids)` when `ids is not None`, else `0`). -/
def markerCount : Option (List ℤ) → ℕ
  | some l => l.length
  | none => 0

/-- The statistics accumulation of `aruco_validator.process_video` over
a whole video: each list entry is one frame's detector output
(`none` for `ids is None`). -/
def process_video (frames : List (Option (List ℤ))) : SessionSummary :=
  frames.foldl observe
    { total_frames := 0
      frames_with_markers := 0
      total_markers_detected := 0
      marker_ids_found := ∅ }


/-- An axis-aligned square marker candidate quadrilateral centred at
`(cx, cy)` with half-side `h`, used as concrete test geometry (centroid
`(cx, cy)`, perimeter `8 * h`). -/
def mkSquare (cx cy h : ℚ) : Quad :=
  ⟨(cx - h, cy - h), (cx + h, cy - h), (cx + h, cy + h), (cx - h, cy + h)⟩

/-- Synthetic candidate at centroid `(0, 0)` with perimeter `8`. -/
def exC0 : Cand := ⟨mkSquare 0 0 1, 10⟩

/-- Synthetic candidate at centroid `(5, 5)` with perimeter `16`. -/
def exC1 : Cand := ⟨mkSquare 5 5 2, 11⟩

/-- Synthetic candidate at centroid `(100, 100)` with perimeter `8`. -/
def exC2 : Cand := ⟨mkSquare 100 100 1, 12⟩

/-- Chain candidate at centroid `(0, 0)` with perimeter `16`. -/
def chC0 : Cand := ⟨mkSquare 0 0 2, 20⟩

/-- Chain candidate at centroid `(5, 0)` with perimeter `12`. -/
def chC1 : Cand := ⟨mkSquare 5 0 (3 / 2), 21⟩

/-- Chain candidate at centroid `(10, 0)` with perimeter `8`. -/
def chC2 : Cand := ⟨mkSquare 10 0 1, 22⟩

/-- Two distinct candidates sharing one quadrilateral, hence with equal
centroids and equal perimeters (a perimeter tie). -/
def tieC0 : Cand := ⟨mkSquare 0 0 1, 1⟩

/-- Second candidate of the perimeter tie (different id). -/
def tieC1 : Cand := ⟨mkSquare 0 0 1, 2⟩

/-- A detection oracle for which only the second dictionary of the
scan order yields an accepted marker. -/
def detectOnlySecond : String → Option (List Cand) := fun dict_name =>
  if dict_name = "DICT_5X5_50" then some [⟨mkSquare 0 0 1, 7⟩] else none

end Aruco

namespace Aruco

/-- The strict comparison of a centroid distance against the rational
threshold `min_distance` reduces to a rational comparison of the squared
distance. -/
theorem dist_lt_iff (p q : Point) (d : ℚ) :
    dist p q < (d : ℝ) ↔ 0 < d ∧ dist2 p q < d ^ 2 := by
  unfold dist
  constructor
  · intro hlt
    have h0 : (0 : ℝ) ≤ Real.sqrt ((dist2 p q : ℚ) : ℝ) := Real.sqrt_nonneg _
    have hd : (0 : ℝ) < (d : ℚ) := lt_of_le_of_lt h0 hlt
    have hd' : (0 : ℚ) < d := by exact_mod_cast hd
    refine ⟨hd', ?_⟩
    have := (Real.sqrt_lt' hd).mp hlt
    exact_mod_cast this
  · rintro ⟨hd, hlt⟩
    have hd' : (0 : ℝ) < ((d : ℚ) : ℝ) := by exact_mod_cast hd
    rw [Real.sqrt_lt' hd']
    exact_mod_cast hlt

/-- The centroid of `mkSquare cx cy h` is its centre `(cx, cy)`. -/
theorem centroid_mkSquare (cx cy h : ℚ) : centroid (mkSquare cx cy h) = (cx, cy) := by
  unfold centroid mkSquare
  simp only
  refine Prod.ext ?_ ?_ <;> · simp only; ring

/-- Square roots of rational perfect squares evaluate exactly. -/
theorem sqrt_ratCast (x y : ℚ) (hy : 0 ≤ y) (hxy : x = y ^ 2) :
    Real.sqrt ((x : ℚ) : ℝ) = (y : ℝ) := by
  rw [hxy]
  push_cast
  exact Real.sqrt_sq (by exact_mod_cast hy)

/-- The perimeter of `mkSquare cx cy h` is `8 * h` for `0 ≤ h`. -/
theorem arcLength_mkSquare (cx cy h : ℚ) (hh : 0 ≤ h) :
    arcLength (mkSquare cx cy h) = ((8 * h : ℚ) : ℝ) := by
  unfold arcLength mkSquare dist
  have e1 : dist2 ((cx - h, cy - h) : Point) ((cx + h, cy - h) : Point) = (2 * h) ^ 2 := by
    unfold dist2; ring
  have e2 : dist2 ((cx + h, cy - h) : Point) ((cx + h, cy + h) : Point) = (2 * h) ^ 2 := by
    unfold dist2; ring
  have e3 : dist2 ((cx + h, cy + h) : Point) ((cx - h, cy + h) : Point) = (2 * h) ^ 2 := by
    unfold dist2; ring
  have e4 : dist2 ((cx - h, cy + h) : Point) ((cx - h, cy - h) : Point) = (2 * h) ^ 2 := by
    unfold dist2; ring
  have h2 : (0 : ℚ) ≤ 2 * h := by linarith
  rw [sqrt_ratCast _ _ h2 e1, sqrt_ratCast _ _ h2 e2, sqrt_ratCast _ _ h2 e3,
    sqrt_ratCast _ _ h2 e4]
  push_cast
  ring

/-- Discarding can only turn flags off. -/
theorem discard_le (keep : ℕ → Bool) (j k : ℕ)
    (h : discard keep j k = true) : keep k = true := by
  unfold discard at h
  by_cases hkj : k = j
  · rw [if_pos hkj] at h
    exact absurd h (by simp)
  · rwa [if_neg hkj] at h

/-- The inner loop never resurrects a discarded candidate. -/
theorem innerLoop_le (d : ℚ) (cs : List Cand) (i : ℕ) :
    ∀ (js : List ℕ) (keep : ℕ → Bool) (k : ℕ),
      innerLoop d cs i js keep k = true → keep k = true := by
  intro js
  induction js with
  | nil => intro keep k h; exact h
  | cons j js ih =>
    intro keep k h
    rw [innerLoop] at h
    split at h
    · exact ih keep k h
    · split at h
      · split at h
        · exact discard_le keep j k (ih _ k h)
        · exact discard_le keep i k h
      · exact ih keep k h

/-- The outer loop never resurrects a discarded candidate. -/
theorem outerLoop_le (d : ℚ) (cs : List Cand) :
    ∀ (idxs : List ℕ) (keep : ℕ → Bool) (k : ℕ),
      outerLoop d cs idxs keep k = true → keep k = true := by
  intro idxs
  induction idxs with
  | nil => intro keep k h; exact h
  | cons i rest ih =>
    intro keep k h
    rw [outerLoop] at h
    split at h
    · exact ih keep k h
    · exact innerLoop_le d cs i _ keep k (ih _ k h)

/-- If candidate `i` survives its inner loop, every index of the
processed list that also survives is at distance at least
`min_distance` from `i` (otherwise one of the two would have been
discarded at their comparison). -/
theorem innerLoop_spec (d : ℚ) (cs : List Cand) (i : ℕ) :
    ∀ (js : List ℕ) (keep : ℕ → Bool),
      innerLoop d cs i js keep i = true →
      ∀ j ∈ js, innerLoop d cs i js keep j = true →
        ¬ (dist (centroid (cs.getD i default).corners)
            (centroid (cs.getD j default).corners) < (d : ℝ)) := by
  intro js
  induction js with
  | nil => intro keep _ j hj; exact absurd hj (List.not_mem_nil j)
  | cons j0 js ih =>
    intro keep hi j hj
    by_cases hk0 : keep j0 = false
    · rw [innerLoop, if_pos hk0] at hi ⊢
      intro hjkeep
      rcases List.mem_cons.mp hj with hj0 | hjs
      · subst hj0
        have := innerLoop_le d cs i js keep j hjkeep
        rw [this] at hk0
        exact absurd hk0 (by simp)
      · exact ih keep hi j hjs hjkeep
    · rw [innerLoop, if_neg hk0] at hi ⊢
      by_cases hclose : dist (centroid (cs.getD i default).corners)
          (centroid (cs.getD j0 default).corners) < (d : ℝ)
      · rw [if_pos hclose] at hi ⊢
        by_cases hperim : arcLength (cs.getD i default).corners >
            arcLength (cs.getD j0 default).corners
        · rw [if_pos hperim] at hi ⊢
          intro hjkeep
          rcases List.mem_cons.mp hj with hj0 | hjs
          · subst hj0
            have := innerLoop_le d cs i js (discard keep j) j hjkeep
            have hf : discard keep j j = false := by unfold discard; simp
            rw [this] at hf
            exact absurd hf (by simp)
          · exact ih (discard keep j0) hi j hjs hjkeep
        · rw [if_neg hperim] at hi
          have hf : discard keep i i = false := by unfold discard; simp
          rw [hi] at hf
          exact absurd hf (by simp)
      · rw [if_neg hclose] at hi ⊢
        intro hjkeep
        rcases List.mem_cons.mp hj with hj0 | hjs
        · subst hj0
          exact hclose
        · exact ih keep hi j hjs hjkeep

/-- After the outer loop, any two surviving indices among the processed
ones are at distance at least `min_distance`. -/
theorem outerLoop_spec (d : ℚ) (cs : List Cand) :
    ∀ (idxs : List ℕ) (keep : ℕ → Bool) (i : ℕ), i ∈ idxs →
      outerLoop d cs idxs keep i = true →
      ∀ j : ℕ, i < j → j < cs.length →
        outerLoop d cs idxs keep j = true →
        ¬ (dist (centroid (cs.getD i default).corners)
            (centroid (cs.getD j default).corners) < (d : ℝ)) := by
  intro idxs
  induction idxs with
  | nil => intro keep i hi; exact absurd hi (List.not_mem_nil i)
  | cons i0 rest ih =>
    intro keep i hi hikeep j hij hjlen hjkeep
    by_cases hk0 : keep i0 = false
    · rw [outerLoop, if_pos hk0] at hikeep hjkeep
      rcases List.mem_cons.mp hi with hi0 | hirest
      · subst hi0
        have := outerLoop_le d cs rest keep i hikeep
        rw [this] at hk0
        exact absurd hk0 (by simp)
      · exact ih keep i hirest hikeep j hij hjlen hjkeep
    · rw [outerLoop, if_neg hk0] at hikeep hjkeep
      rcases List.mem_cons.mp hi with hi0 | hirest
      · subst hi0
        have h1i := outerLoop_le d cs rest _ i hikeep
        have h1j := outerLoop_le d cs rest _ j hjkeep
        have hjmem : j ∈ List.range' (i + 1) (cs.length - (i + 1)) := by
          rw [List.mem_range'_1]
          omega
        exact innerLoop_spec d cs i _ keep h1i j hjmem h1j
      · exact ih _ i hirest hikeep j hij hjlen hjkeep

/-- Any two candidates that both survive `filter_duplicate_detections`
are at centroid distance at least `min_distance`. -/
theorem keepFinal_spec (cs : List Cand) (d : ℚ) (i j : ℕ)
    (hij : i < j) (hj : j < cs.length)
    (hi : keepFinal cs d i = true) (hjk : keepFinal cs d j = true) :
    ¬ (dist (centroid (cs.getD i default).corners)
        (centroid (cs.getD j default).corners) < (d : ℝ)) := by
  unfold keepFinal at hi hjk
  exact outerLoop_spec d cs (List.range cs.length) _ i
    (List.mem_range.mpr (lt_trans hij hj)) hi j hij hj hjk

/-- Members of the index-filtered list are exactly elements at kept
indices. -/
theorem mem_filterIdx {α : Type} [Inhabited α] (keep : ℕ → Bool) :
    ∀ (l : List α) (k : ℕ) (b : α), b ∈ filterIdx keep k l →
      ∃ m, m < l.length ∧ keep (k + m) = true ∧ l.getD m default = b := by
  intro l
  induction l with
  | nil => intro k b h; exact absurd h (List.not_mem_nil b)
  | cons a l ih =>
    intro k b h
    rw [filterIdx] at h
    by_cases hk : keep k = true
    · rw [if_pos hk] at h
      rcases List.mem_cons.mp h with hb | hb
      · exact ⟨0, by simp, by simpa using hk, by simp [hb.symm]⟩
      · obtain ⟨m, hm, hkm, hgd⟩ := ih (k + 1) b hb
        exact ⟨m + 1, by simp only [List.length_cons]; omega,
          by rwa [show k + (m + 1) = k + 1 + m by omega], by simpa using hgd⟩
    · rw [if_neg hk] at h
      obtain ⟨m, hm, hkm, hgd⟩ := ih (k + 1) b h
      exact ⟨m + 1, by simp only [List.length_cons]; omega,
        by rwa [show k + (m + 1) = k + 1 + m by omega], by simpa using hgd⟩

/-- A pairwise property over kept index pairs transfers to the
index-filtered list. -/
theorem pairwise_filterIdx {α : Type} [Inhabited α]
    (keep : ℕ → Bool) (R : α → α → Prop) :
    ∀ (l : List α) (k : ℕ),
      (∀ m m2, m < m2 → m2 < l.length → keep (k + m) = true →
        keep (k + m2) = true → R (l.getD m default) (l.getD m2 default)) →
      (filterIdx keep k l).Pairwise R := by
  intro l
  induction l with
  | nil => intro k _; exact List.Pairwise.nil
  | cons a l ih =>
    intro k H
    rw [filterIdx]
    have Hshift : ∀ m m2, m < m2 → m2 < l.length → keep (k + 1 + m) = true →
        keep (k + 1 + m2) = true → R (l.getD m default) (l.getD m2 default) := by
      intro m m2 hmm hm2 hkm hkm2
      have := H (m + 1) (m2 + 1) (by omega) (by simp only [List.length_cons]; omega)
        (by rwa [show k + (m + 1) = k + 1 + m by omega])
        (by rwa [show k + (m2 + 1) = k + 1 + m2 by omega])
      rw [List.getD_cons_succ, List.getD_cons_succ] at this
      exact this
    by_cases hk : keep k = true
    · rw [if_pos hk]
      refine List.Pairwise.cons ?_ (ih (k + 1) Hshift)
      intro b hb
      obtain ⟨m, hm, hkm, hgd⟩ := mem_filterIdx keep l (k + 1) b hb
      have := H 0 (m + 1) (by omega) (by simp only [List.length_cons]; omega)
        (by simpa using hk)
        (by rwa [show k + (m + 1) = k + 1 + m by omega])
      rw [List.getD_cons_zero, List.getD_cons_succ, hgd] at this
      exact this
    · rw [if_neg hk]
      exact ih (k + 1) Hshift

/-- Two close candidates where the first has the strictly larger
perimeter: the first is kept. -/
theorem filterDup_pair_gt (d : ℚ) (a b : Cand)
    (hclose : dist (centroid a.corners) (centroid b.corners) < (d : ℝ))
    (hp : arcLength a.corners > arcLength b.corners) :
    filter_duplicate_detections [a, b] d = [a] := by
  unfold filter_duplicate_detections keepFinal
  rw [if_neg (by simp)]
  rw [show List.range (List.length [a, b]) = [0, 1] from rfl]
  rw [outerLoop, if_neg (by simp)]
  rw [show List.range' (0 + 1) (List.length [a, b] - (0 + 1)) = [1] from rfl]
  rw [innerLoop, if_neg (by simp)]
  simp only [List.getD_cons_zero, List.getD_cons_succ]
  rw [if_pos hclose, if_pos hp]
  rw [innerLoop]
  rw [outerLoop, if_pos (by unfold discard; simp)]
  rw [outerLoop]
  rw [filterIdx, if_pos (by unfold discard; simp)]
  rw [filterIdx, if_neg (by unfold discard; simp)]
  rw [filterIdx]

/-- Two close candidates where the first's perimeter is not strictly
larger (smaller or tied): the `else` branch discards index `0`, keeping
index `1`. -/
theorem filterDup_pair_nle (d : ℚ) (a b : Cand)
    (hclose : dist (centroid a.corners) (centroid b.corners) < (d : ℝ))
    (hp : ¬ (arcLength a.corners > arcLength b.corners)) :
    filter_duplicate_detections [a, b] d = [b] := by
  unfold filter_duplicate_detections keepFinal
  rw [if_neg (by simp)]
  rw [show List.range (List.length [a, b]) = [0, 1] from rfl]
  rw [outerLoop, if_neg (by simp)]
  rw [show List.range' (0 + 1) (List.length [a, b] - (0 + 1)) = [1] from rfl]
  rw [innerLoop, if_neg (by simp)]
  simp only [List.getD_cons_zero, List.getD_cons_succ]
  rw [if_pos hclose, if_neg hp]
  rw [outerLoop, if_neg (by unfold discard; simp)]
  rw [show List.range' (1 + 1) (List.length [a, b] - (1 + 1)) = [] from rfl]
  rw [innerLoop]
  rw [outerLoop]
  rw [filterIdx, if_neg (by unfold discard; simp)]
  rw [filterIdx, if_pos (by unfold discard; simp)]
  rw [filterIdx]

/-- Evaluation of the duplicate filter on the specification's synthetic
example: centroids `(0,0)`, `(5,5)`, `(100,100)` with threshold `10`;
the first two collapse to the larger-perimeter survivor `exC1`. -/
theorem filterDup_three_example :
    filter_duplicate_detections [exC0, exC1, exC2] 10 = [exC1, exC2] := by
  have hclose : dist (centroid exC0.corners) (centroid exC1.corners) < ((10 : ℚ) : ℝ) := by
    show dist (centroid (mkSquare 0 0 1)) (centroid (mkSquare 5 5 2)) < ((10 : ℚ) : ℝ)
    rw [centroid_mkSquare, centroid_mkSquare, dist_lt_iff]
    refine ⟨by norm_num, by norm_num [dist2]⟩
  have hperim : ¬ (arcLength exC0.corners > arcLength exC1.corners) := by
    show ¬ (arcLength (mkSquare 0 0 1) > arcLength (mkSquare 5 5 2))
    rw [arcLength_mkSquare _ _ _ (by norm_num), arcLength_mkSquare _ _ _ (by norm_num)]
    norm_num
  have hfar : ¬ (dist (centroid exC1.corners) (centroid exC2.corners) < ((10 : ℚ) : ℝ)) := by
    show ¬ (dist (centroid (mkSquare 5 5 2)) (centroid (mkSquare 100 100 1)) < ((10 : ℚ) : ℝ))
    rw [centroid_mkSquare, centroid_mkSquare, dist_lt_iff]
    norm_num [dist2]
  unfold filter_duplicate_detections keepFinal
  rw [if_neg (by simp)]
  rw [show List.range (List.length [exC0, exC1, exC2]) = [0, 1, 2] from rfl]
  rw [outerLoop, if_neg (by simp)]
  rw [show List.range' (0 + 1) (List.length [exC0, exC1, exC2] - (0 + 1)) = [1, 2] from rfl]
  rw [innerLoop, if_neg (by simp)]
  simp only [List.getD_cons_zero, List.getD_cons_succ]
  rw [if_pos hclose, if_neg hperim]
  rw [outerLoop, if_neg (by unfold discard; simp)]
  rw [show List.range' (1 + 1) (List.length [exC0, exC1, exC2] - (1 + 1)) = [2] from rfl]
  rw [innerLoop, if_neg (by unfold discard; simp)]
  simp only [List.getD_cons_zero, List.getD_cons_succ]
  rw [if_neg hfar]
  rw [innerLoop]
  rw [outerLoop, if_neg (by unfold discard; simp)]
  rw [show List.range' (2 + 1) (List.length [exC0, exC1, exC2] - (2 + 1)) = [] from rfl]
  rw [innerLoop]
  rw [outerLoop]
  rw [filterIdx, if_neg (by unfold discard; simp)]
  rw [filterIdx, if_pos (by unfold discard; simp)]
  rw [filterIdx, if_pos (by unfold discard; simp)]
  rw [filterIdx]

/-- Evaluation of the duplicate filter on a chain: `chC0` beats `chC1`
(close pair, larger perimeter), `chC2` is outside `chC0`'s radius but
inside `chC1`'s; the greedy pass keeps `chC0` and `chC2`. -/
theorem filterDup_three_chain :
    filter_duplicate_detections [chC0, chC1, chC2] 10 = [chC0, chC2] := by
  have hclose : dist (centroid chC0.corners) (centroid chC1.corners) < ((10 : ℚ) : ℝ) := by
    show dist (centroid (mkSquare 0 0 2)) (centroid (mkSquare 5 0 (3 / 2))) < ((10 : ℚ) : ℝ)
    rw [centroid_mkSquare, centroid_mkSquare, dist_lt_iff]
    refine ⟨by norm_num, by norm_num [dist2]⟩
  have hperim : arcLength chC0.corners > arcLength chC1.corners := by
    show arcLength (mkSquare 0 0 2) > arcLength (mkSquare 5 0 (3 / 2))
    rw [arcLength_mkSquare _ _ _ (by norm_num), arcLength_mkSquare _ _ _ (by norm_num)]
    norm_num
  have hfar : ¬ (dist (centroid chC0.corners) (centroid chC2.corners) < ((10 : ℚ) : ℝ)) := by
    show ¬ (dist (centroid (mkSquare 0 0 2)) (centroid (mkSquare 10 0 1)) < ((10 : ℚ) : ℝ))
    rw [centroid_mkSquare, centroid_mkSquare, dist_lt_iff]
    norm_num [dist2]
  unfold filter_duplicate_detections keepFinal
  rw [if_neg (by simp)]
  rw [show List.range (List.length [chC0, chC1, chC2]) = [0, 1, 2] from rfl]
  rw [outerLoop, if_neg (by simp)]
  rw [show List.range' (0 + 1) (List.length [chC0, chC1, chC2] - (0 + 1)) = [1, 2] from rfl]
  rw [innerLoop, if_neg (by simp)]
  simp only [List.getD_cons_zero, List.getD_cons_succ]
  rw [if_pos hclose, if_pos hperim]
  rw [innerLoop, if_neg (by unfold discard; simp)]
  simp only [List.getD_cons_zero, List.getD_cons_succ]
  rw [if_neg hfar]
  rw [innerLoop]
  rw [outerLoop, if_pos (by unfold discard; simp)]
  rw [outerLoop, if_neg (by unfold discard; simp)]
  rw [show List.range' (2 + 1) (List.length [chC0, chC1, chC2] - (2 + 1)) = [] from rfl]
  rw [innerLoop]
  rw [outerLoop]
  rw [filterIdx, if_pos (by unfold discard; simp)]
  rw [filterIdx, if_neg (by unfold discard; simp)]
  rw [filterIdx, if_pos (by unfold discard; simp)]
  rw [filterIdx]

/-- `chC1` and `chC2` are a close pair (distance `5 < 10`). -/
theorem chain_close_pair :
    dist (centroid chC1.corners) (centroid chC2.corners) < ((10 : ℚ) : ℝ) := by
  show dist (centroid (mkSquare 5 0 (3 / 2))) (centroid (mkSquare 10 0 1)) < ((10 : ℚ) : ℝ)
  rw [centroid_mkSquare, centroid_mkSquare, dist_lt_iff]
  refine ⟨by norm_num, by norm_num [dist2]⟩

/-- `chC1` has the strictly larger perimeter of the close pair
`(chC1, chC2)`. -/
theorem chain_perim_gt_pair : arcLength chC1.corners > arcLength chC2.corners := by
  show arcLength (mkSquare 5 0 (3 / 2)) > arcLength (mkSquare 10 0 1)
  rw [arcLength_mkSquare _ _ _ (by norm_num), arcLength_mkSquare _ _ _ (by norm_num)]
  norm_num

/-- The tie candidates share a centroid, so their distance is below any
positive threshold such as `10`. -/
theorem tie_close :
    dist (centroid tieC0.corners) (centroid tieC1.corners) < ((10 : ℚ) : ℝ) := by
  show dist (centroid (mkSquare 0 0 1)) (centroid (mkSquare 0 0 1)) < ((10 : ℚ) : ℝ)
  rw [centroid_mkSquare, dist_lt_iff]
  refine ⟨by norm_num, by norm_num [dist2]⟩

/-- Fold characterisation of the statistics accumulation: the frame
counter advances once per frame, the marker total adds each frame's
marker count, and the frames-with-markers counter grows by at most one
per frame. -/
theorem foldl_observe (frames : List (Option (List ℤ))) :
    ∀ s : SessionSummary,
      (frames.foldl observe s).total_frames = s.total_frames + frames.length ∧
      (frames.foldl observe s).total_markers_detected =
        s.total_markers_detected + (frames.map markerCount).sum ∧
      (frames.foldl observe s).frames_with_markers ≤
        s.frames_with_markers + frames.length := by
  induction frames with
  | nil => intro s; simp
  | cons f rest ih =>
    intro s
    rw [List.foldl_cons]
    obtain ⟨h1, h2, h3⟩ := ih (observe s f)
    refine ⟨?_, ?_, ?_⟩
    · rw [h1]
      match f with
      | some l => simp only [observe, markerCount, List.length_cons]; omega
      | none => simp only [observe, markerCount, List.length_cons]; omega
    · rw [h2]
      match f with
      | some l => simp only [observe, markerCount, List.map_cons, List.sum_cons]; omega
      | none => simp only [observe, markerCount, List.map_cons, List.sum_cons]; omega
    · refine le_trans h3 ?_
      match f with
      | some l => simp only [observe, markerCount, List.length_cons]; omega
      | none => simp only [observe, markerCount, List.length_cons]; omega

end Aruco

namespace Aruco

/-- C1: the claim states that when two accepted candidates `i < j` have
centroid distance strictly below `min_distance` and equal perimeters,
the lower-index candidate `i` is kept.  This is false on the code: on a
perimeter tie `perimeter1 > perimeter2` fails, so the `else` branch runs
`keep[i] = False` and the lower-index candidate is the one discarded.
Concretely, for the tie pair `tieC0, tieC1` (same quadrilateral, ids `1`
and `2`) the filter keeps `tieC1` (index `1`), not `tieC0`. -/
theorem C1_counterexample :
    dist (centroid tieC0.corners) (centroid tieC1.corners) < ((10 : ℚ) : ℝ) ∧
    arcLength tieC0.corners = arcLength tieC1.corners ∧
    filter_duplicate_detections [tieC0, tieC1] 10 = [tieC1] ∧
    filter_duplicate_detections [tieC0, tieC1] 10 ≠ [tieC0] := by
  have heq : arcLength tieC0.corners = arcLength tieC1.corners := rfl
  have hres := filterDup_pair_nle 10 tieC0 tieC1 tie_close (by simp [heq])
  refine ⟨tie_close, heq, hres, ?_⟩
  rw [hres]
  simp [tieC0, tieC1]

/-- C1 (amended): when exactly two accepted candidates have centroid
distance strictly below `min_distance` and equal quadrilateral
perimeters, the higher-index candidate (index `1`) is the one kept and
the lower-index candidate (index `0`) is discarded, deterministically
for every such input. -/
theorem C1_theorem (min_distance : ℚ) (a b : Cand)
    (hclose : dist (centroid a.corners) (centroid b.corners) < (min_distance : ℝ))
    (hperim : arcLength a.corners = arcLength b.corners) :
    filter_duplicate_detections [a, b] min_distance = [b] :=
  filterDup_pair_nle min_distance a b hclose (by simp [hperim])

/-- C1 witness: the amended tie-break applied to the concrete tie pair
`tieC0, tieC1` at threshold `10`. -/
theorem C1_witness :
    dist (centroid tieC0.corners) (centroid tieC1.corners) < ((10 : ℚ) : ℝ) ∧
    arcLength tieC0.corners = arcLength tieC1.corners ∧
    filter_duplicate_detections [tieC0, tieC1] 10 = [tieC1] :=
  ⟨tie_close, rfl, C1_theorem 10 tieC0 tieC1 tie_close rfl⟩

/-- C2: the claim quantifies over every close pair of the input, but the
greedy single pass only resolves pairs whose members are both still
kept.  In the chain `chC0, chC1, chC2` (centroids `(0,0)`, `(5,0)`,
`(10,0)`, perimeters `16 > 12 > 8`, threshold `10`) the pair
`(chC1, chC2)` is close and `chC1` has the strictly larger perimeter,
yet the output `[chC0, chC2]` keeps `chC2` and discards `chC1`
(`chC1` had already been discarded by `chC0`, so the pair was never
resolved in `chC1`'s favour). -/
theorem C2_counterexample :
    dist (centroid chC1.corners) (centroid chC2.corners) < ((10 : ℚ) : ℝ) ∧
    arcLength chC1.corners > arcLength chC2.corners ∧
    filter_duplicate_detections [chC0, chC1, chC2] 10 = [chC0, chC2] ∧
    chC1 ≠ chC0 ∧ chC1 ≠ chC2 :=
  ⟨chain_close_pair, chain_perim_gt_pair, filterDup_three_chain,
    by simp [chC0, chC1], by simp [chC1, chC2]⟩

/-- C2 (amended): whenever the filter actually compares two still-kept
candidates whose centroid distance is strictly below `min_distance`, it
keeps the strictly-larger-perimeter one and discards the other — stated
here for two-candidate inputs, where every close pair is compared; and
the claim's concrete instance holds: for the three candidates with
centroids `(0,0)`, `(5,5)`, `(100,100)` and `min_distance = 10`, the
output has exactly `2` accepted entries, the larger-perimeter one of the
first two (`exC1`) and the third. -/
theorem C2_theorem :
    (∀ (min_distance : ℚ) (a b : Cand),
      dist (centroid a.corners) (centroid b.corners) < (min_distance : ℝ) →
      arcLength a.corners > arcLength b.corners →
      filter_duplicate_detections [a, b] min_distance = [a]) ∧
    (∀ (min_distance : ℚ) (a b : Cand),
      dist (centroid a.corners) (centroid b.corners) < (min_distance : ℝ) →
      arcLength a.corners < arcLength b.corners →
      filter_duplicate_detections [a, b] min_distance = [b]) ∧
    (arcLength exC1.corners > arcLength exC0.corners ∧
      filter_duplicate_detections [exC0, exC1, exC2] 10 = [exC1, exC2] ∧
      (filter_duplicate_detections [exC0, exC1, exC2] 10).length = 2) := by
  refine ⟨fun d a b hc hp => filterDup_pair_gt d a b hc hp,
    fun d a b hc hp => filterDup_pair_nle d a b hc (lt_asymm hp), ?_,
    filterDup_three_example, ?_⟩
  · show arcLength (mkSquare 5 5 2) > arcLength (mkSquare 0 0 1)
    rw [arcLength_mkSquare _ _ _ (by norm_num), arcLength_mkSquare _ _ _ (by norm_num)]
    norm_num
  · rw [filterDup_three_example]
    rfl

/-- C2 witness: the per-comparison rule applied to the concrete close
pair `chC0, chC1` with perimeters `16 > 12` at threshold `10`. -/
theorem C2_witness :
    dist (centroid chC0.corners) (centroid chC1.corners) < ((10 : ℚ) : ℝ) ∧
    arcLength chC0.corners > arcLength chC1.corners ∧
    filter_duplicate_detections [chC0, chC1] 10 = [chC0] := by
  have hc : dist (centroid chC0.corners) (centroid chC1.corners) < ((10 : ℚ) : ℝ) := by
    show dist (centroid (mkSquare 0 0 2)) (centroid (mkSquare 5 0 (3 / 2))) < ((10 : ℚ) : ℝ)
    rw [centroid_mkSquare, centroid_mkSquare, dist_lt_iff]
    refine ⟨by norm_num, by norm_num [dist2]⟩
  have hp : arcLength chC0.corners > arcLength chC1.corners := by
    show arcLength (mkSquare 0 0 2) > arcLength (mkSquare 5 0 (3 / 2))
    rw [arcLength_mkSquare _ _ _ (by norm_num), arcLength_mkSquare _ _ _ (by norm_num)]
    norm_num
  exact ⟨hc, hp, C2_theorem.1 10 chC0 chC1 hc hp⟩

/-- C3: in first-match mode, the detector is invoked on successive
dictionaries in the caller-given order and the scan returns at the first
dictionary whose filtered accepted set is non-empty: when the misses
`pre` precede a hit `dict_name`, exactly `pre.length + 1` invocations
happen and the hit dictionary's result is returned, dictionaries after
it are never tried; and the all-`None` result is returned only after
every dictionary has been tried (`dicts.length` invocations) and
yielded zero accepted detections. -/
theorem C3_theorem :
    (∀ (detect : String → Option (List Cand)) (pre : List String)
      (dict_name : String) (post : List String) (cands : List Cand),
      (∀ m ∈ pre, hitB (detect m) = false) →
      detect dict_name = some cands → 0 < cands.length →
      find_first_marker detect (pre ++ dict_name :: post) =
        (pre.length + 1, some (dict_name, cands))) ∧
    (∀ (detect : String → Option (List Cand)) (dicts : List String),
      (∀ m ∈ dicts, hitB (detect m) = false) →
      find_first_marker detect dicts = (dicts.length, none)) := by
  constructor
  · intro detect pre dict_name post cands hmiss hd hlen
    induction pre with
    | nil =>
      simp only [List.nil_append, find_first_marker, hd, if_pos hlen, List.length_nil]
    | cons m pre ih =>
      have hm : hitB (detect m) = false := hmiss m (List.mem_cons_self m pre)
      have ih2 := ih (fun x hx => hmiss x (List.mem_cons_of_mem m hx))
      rw [List.cons_append, find_first_marker]
      match hdm : detect m with
      | some cs =>
        rw [hdm, hitB] at hm
        simp only [decide_eq_false_iff_not] at hm
        simp only [if_neg hm, ih2, List.length_cons]
      | none =>
        simp only [ih2, List.length_cons]
  · intro detect dicts hmiss
    induction dicts with
    | nil => rfl
    | cons m rest ih =>
      have hm : hitB (detect m) = false := hmiss m (List.mem_cons_self m rest)
      have ih2 := ih (fun x hx => hmiss x (List.mem_cons_of_mem m hx))
      rw [find_first_marker]
      match hdm : detect m with
      | some cs =>
        rw [hdm, hitB] at hm
        simp only [decide_eq_false_iff_not] at hm
        simp only [if_neg hm, ih2, List.length_cons]
      | none =>
        simp only [ih2, List.length_cons]

/-- C3 witness: three dictionaries of which only the second yields a
hit; the scan performs exactly `2` detector invocations and returns the
second dictionary's result. -/
theorem C3_witness :
    (∀ m ∈ ["DICT_4X4_50"], hitB (detectOnlySecond m) = false) ∧
    find_first_marker detectOnlySecond
        ["DICT_4X4_50", "DICT_5X5_50", "DICT_6X6_250"] =
      (2, some ("DICT_5X5_50", [⟨mkSquare 0 0 1, 7⟩])) := by
  have hmiss : ∀ m ∈ ["DICT_4X4_50"], hitB (detectOnlySecond m) = false := by decide
  refine ⟨hmiss, ?_⟩
  exact C3_theorem.1 detectOnlySecond ["DICT_4X4_50"] "DICT_5X5_50" ["DICT_6X6_250"]
    [⟨mkSquare 0 0 1, 7⟩] hmiss rfl (by decide)

/-- C4: in exhaustive mode the detector is invoked exactly once per
dictionary regardless of hits, and the result sequence has exactly one
entry per dictionary whose filtered accepted set is non-empty, in the
original order, with zero-hit dictionaries omitted. -/
theorem C4_theorem (detect : String → Option (List Cand)) (dicts : List String) :
    (test_all_dictionaries detect dicts).1 = dicts.length ∧
    (test_all_dictionaries detect dicts).2 = dicts.filterMap (fun dict_name =>
      match detect dict_name with
      | some cands => if 0 < cands.length then some (dict_name, cands) else none
      | none => none) := by
  induction dicts with
  | nil => exact ⟨rfl, rfl⟩
  | cons m rest ih =>
    rw [test_all_dictionaries, List.filterMap_cons]
    match hdm : detect m with
    | some cs =>
      by_cases hlen : 0 < cs.length
      · simp only [if_pos hlen, List.length_cons]
        exact ⟨by rw [ih.1], by rw [ih.2]⟩
      · simp only [if_neg hlen, List.length_cons]
        exact ⟨by rw [ih.1], by rw [ih.2]⟩
    | none =>
      simp only [List.length_cons]
      exact ⟨by rw [ih.1], by rw [ih.2]⟩

/-- C5: for every positive frame width and height the planner sets
`adaptiveThreshWinSizeMin` to `base = max(7, ⌊min(width,height) * 0.01⌋)`,
`adaptiveThreshWinSizeMax = base * 3`,
`adaptiveThreshWinSizeStep = max(2, ⌊base / 3⌋)`,
`adaptiveThreshConstant = 7`, and
`minDistanceToBorder = max(3, ⌊min(width,height) * 0.03 * 0.02⌋)`. -/
theorem C5_theorem (frame_width frame_height : ℕ)
    (hw : 0 < frame_width) (hh : 0 < frame_height) :
    (calculate_detection_parameters frame_width frame_height).adaptiveThreshWinSizeMin =
      max 7 ⌊((min frame_width frame_height : ℕ) : ℚ) * 0.01⌋ ∧
    (calculate_detection_parameters frame_width frame_height).adaptiveThreshWinSizeMax =
      max 7 ⌊((min frame_width frame_height : ℕ) : ℚ) * 0.01⌋ * 3 ∧
    (calculate_detection_parameters frame_width frame_height).adaptiveThreshWinSizeStep =
      max 2 (max 7 ⌊((min frame_width frame_height : ℕ) : ℚ) * 0.01⌋ / 3) ∧
    (calculate_detection_parameters frame_width frame_height).adaptiveThreshConstant = 7 ∧
    (calculate_detection_parameters frame_width frame_height).minDistanceToBorder =
      max 3 ⌊((min frame_width frame_height : ℕ) : ℚ) * 0.03 * 0.02⌋ :=
  ⟨rfl, rfl, rfl, rfl, rfl⟩

/-- C5 witness: the planner formulas instantiated at a `1920 × 1080`
frame, together with the evaluated concrete values (`base = 10`,
`winSizeMax = 30`, `winSizeStep = 3`, `minDistanceToBorder = 3`). -/
theorem C5_witness :
    (0 < 1920 ∧ 0 < 1080) ∧
    ((calculate_detection_parameters 1920 1080).adaptiveThreshWinSizeMin =
      max 7 ⌊((min 1920 1080 : ℕ) : ℚ) * 0.01⌋ ∧
    (calculate_detection_parameters 1920 1080).adaptiveThreshWinSizeMax =
      max 7 ⌊((min 1920 1080 : ℕ) : ℚ) * 0.01⌋ * 3 ∧
    (calculate_detection_parameters 1920 1080).adaptiveThreshWinSizeStep =
      max 2 (max 7 ⌊((min 1920 1080 : ℕ) : ℚ) * 0.01⌋ / 3) ∧
    (calculate_detection_parameters 1920 1080).adaptiveThreshConstant = 7 ∧
    (calculate_detection_parameters 1920 1080).minDistanceToBorder =
      max 3 ⌊((min 1920 1080 : ℕ) : ℚ) * 0.03 * 0.02⌋) ∧
    ((calculate_detection_parameters 1920 1080).adaptiveThreshWinSizeMin = 10 ∧
    (calculate_detection_parameters 1920 1080).adaptiveThreshWinSizeMax = 30 ∧
    (calculate_detection_parameters 1920 1080).adaptiveThreshWinSizeStep = 3 ∧
    (calculate_detection_parameters 1920 1080).minDistanceToBorder = 3) := by
  refine ⟨⟨by norm_num, by norm_num⟩,
    C5_theorem 1920 1080 (by norm_num) (by norm_num), ?_, ?_, ?_, ?_⟩
  · norm_num [calculate_detection_parameters]
  · norm_num [calculate_detection_parameters]
  · norm_num [calculate_detection_parameters]
  · norm_num [calculate_detection_parameters]

/-- C6: the session summary counters are monotonic under each frame-loop
update (frame counter, frames-with-markers, marker total, and the
unique-id set never shrink), and after a whole run over `N` frames the
frame counter equals `N`, the marker total equals the combined number
`M` of accepted markers, and `frames_with_markers ≤ N`. -/
theorem C6_theorem :
    (∀ (s : SessionSummary) (ids : Option (List ℤ)),
      s.total_frames ≤ (observe s ids).total_frames ∧
      s.frames_with_markers ≤ (observe s ids).frames_with_markers ∧
      s.total_markers_detected ≤ (observe s ids).total_markers_detected ∧
      s.marker_ids_found ⊆ (observe s ids).marker_ids_found) ∧
    (∀ frames : List (Option (List ℤ)),
      (process_video frames).total_frames = frames.length ∧
      (process_video frames).total_markers_detected = (frames.map markerCount).sum ∧
      (process_video frames).frames_with_markers ≤ frames.length) := by
  constructor
  · intro s ids
    match ids with
    | some l =>
      refine ⟨?_, ?_, ?_, ?_⟩ <;> simp only [observe] <;>
        first
          | omega
          | exact Finset.subset_union_left
    | none =>
      refine ⟨?_, ?_, ?_, ?_⟩ <;> simp only [observe] <;>
        first
          | omega
          | exact Finset.Subset.refl _
  · intro frames
    obtain ⟨h1, h2, h3⟩ := foldl_observe frames
      { total_frames := 0, frames_with_markers := 0,
        total_markers_detected := 0, marker_ids_found := ∅ }
    rw [process_video]
    refine ⟨?_, ?_, ?_⟩
    · rw [h1]
      simp
    · rw [h2]
      simp
    · simpa using h3

/-- C7: in the output of `filter_duplicate_detections`, every pair of
surviving accepted candidates has centroid Euclidean distance at least
`min_distance` (no two kept detections remain within the
duplicate-suppression radius). -/
theorem C7_theorem (cands : List Cand) (min_distance : ℚ) :
    (filter_duplicate_detections cands min_distance).Pairwise
      (fun a b => (min_distance : ℝ) ≤ dist (centroid a.corners) (centroid b.corners)) := by
  unfold filter_duplicate_detections
  by_cases h0 : cands.length = 0
  · rw [if_pos h0, List.length_eq_zero.mp h0]
    exact List.Pairwise.nil
  · rw [if_neg h0]
    refine pairwise_filterIdx _ _ cands 0 ?_
    intro m m2 hmm hm2 hkm hkm2
    simp only [Nat.zero_add] at hkm hkm2
    exact le_of_not_lt (keepFinal_spec cands min_distance m m2 hmm hm2 hkm hkm2)

/-- C8: for every `min_distance`, the duplicate filter applied to a
detection set with zero or one accepted candidate returns the input
unchanged; in particular the empty set maps to the empty set. -/
theorem C8_theorem :
    (∀ min_distance : ℚ, filter_duplicate_detections [] min_distance = []) ∧
    (∀ (c : Cand) (min_distance : ℚ), filter_duplicate_detections [c] min_distance = [c]) :=
  ⟨fun _ => rfl, fun _ _ => rfl⟩

/-- C9: for every positive frame width and height the produced
parameters satisfy `adaptiveThreshWinSizeMin < adaptiveThreshWinSizeMax`
and every rate field lies in the half-open interval `(0, 1]`. -/
theorem C9_theorem (w h : ℕ) (hw : 0 < w) (hh : 0 < h) :
    (calculate_detection_parameters w h).adaptiveThreshWinSizeMin <
      (calculate_detection_parameters w h).adaptiveThreshWinSizeMax ∧
    (0 < (calculate_detection_parameters w h).minMarkerPerimeterRate ∧
      (calculate_detection_parameters w h).minMarkerPerimeterRate ≤ 1) ∧
    (0 < (calculate_detection_parameters w h).maxMarkerPerimeterRate ∧
      (calculate_detection_parameters w h).maxMarkerPerimeterRate ≤ 1) ∧
    (0 < (calculate_detection_parameters w h).polygonalApproxAccuracyRate ∧
      (calculate_detection_parameters w h).polygonalApproxAccuracyRate ≤ 1) ∧
    (0 < (calculate_detection_parameters w h).minCornerDistanceRate ∧
      (calculate_detection_parameters w h).minCornerDistanceRate ≤ 1) ∧
    (0 < (calculate_detection_parameters w h).minMarkerDistanceRate ∧
      (calculate_detection_parameters w h).minMarkerDistanceRate ≤ 1) ∧
    (0 < (calculate_detection_parameters w h).perspectiveRemoveIgnoredMarginPerCell ∧
      (calculate_detection_parameters w h).perspectiveRemoveIgnoredMarginPerCell ≤ 1) ∧
    (0 < (calculate_detection_parameters w h).errorCorrectionRate ∧
      (calculate_detection_parameters w h).errorCorrectionRate ≤ 1) := by
  refine ⟨?_, ?_⟩
  · show (max 7 ⌊((min w h : ℕ) : ℚ) * 0.01⌋ : ℤ) <
      max 7 ⌊((min w h : ℕ) : ℚ) * 0.01⌋ * 3
    have h7 : (7 : ℤ) ≤ max 7 ⌊((min w h : ℕ) : ℚ) * 0.01⌋ := le_max_left _ _
    nlinarith
  · norm_num [calculate_detection_parameters]

/-- C9 witness: the invariants instantiated at a `640 × 480` frame. -/
theorem C9_witness :
    (0 < 640 ∧ 0 < 480) ∧
    ((calculate_detection_parameters 640 480).adaptiveThreshWinSizeMin <
      (calculate_detection_parameters 640 480).adaptiveThreshWinSizeMax ∧
    (0 < (calculate_detection_parameters 640 480).minMarkerPerimeterRate ∧
      (calculate_detection_parameters 640 480).minMarkerPerimeterRate ≤ 1) ∧
    (0 < (calculate_detection_parameters 640 480).maxMarkerPerimeterRate ∧
      (calculate_detection_parameters 640 480).maxMarkerPerimeterRate ≤ 1) ∧
    (0 < (calculate_detection_parameters 640 480).polygonalApproxAccuracyRate ∧
      (calculate_detection_parameters 640 480).polygonalApproxAccuracyRate ≤ 1) ∧
    (0 < (calculate_detection_parameters 640 480).minCornerDistanceRate ∧
      (calculate_detection_parameters 640 480).minCornerDistanceRate ≤ 1) ∧
    (0 < (calculate_detection_parameters 640 480).minMarkerDistanceRate ∧
      (calculate_detection_parameters 640 480).minMarkerDistanceRate ≤ 1) ∧
    (0 < (calculate_detection_parameters 640 480).perspectiveRemoveIgnoredMarginPerCell ∧
      (calculate_detection_parameters 640 480).perspectiveRemoveIgnoredMarginPerCell ≤ 1) ∧
    (0 < (calculate_detection_parameters 640 480).errorCorrectionRate ∧
      (calculate_detection_parameters 640 480).errorCorrectionRate ≤ 1)) :=
  ⟨⟨by norm_num, by norm_num⟩, C9_theorem 640 480 (by norm_num) (by norm_num)⟩

/-- C10: `get_dictionary_info` maps the legacy name
`DICT_ARUCO_ORIGINAL` to the hard-coded pair `(6, 1024)` and every other
recognized dictionary name `DICT_<SIZE>X<SIZE>_<COUNT>` to its grid size
and marker count parsed from the numeric tokens after splitting on
`_`. -/
theorem C10_theorem :
    get_dictionary_info "DICT_4X4_50" = some (4, 50) ∧
    get_dictionary_info "DICT_4X4_100" = some (4, 100) ∧
    get_dictionary_info "DICT_4X4_250" = some (4, 250) ∧
    get_dictionary_info "DICT_4X4_1000" = some (4, 1000) ∧
    get_dictionary_info "DICT_5X5_50" = some (5, 50) ∧
    get_dictionary_info "DICT_5X5_100" = some (5, 100) ∧
    get_dictionary_info "DICT_5X5_250" = some (5, 250) ∧
    get_dictionary_info "DICT_5X5_1000" = some (5, 1000) ∧
    get_dictionary_info "DICT_6X6_50" = some (6, 50) ∧
    get_dictionary_info "DICT_6X6_100" = some (6, 100) ∧
    get_dictionary_info "DICT_6X6_250" = some (6, 250) ∧
    get_dictionary_info "DICT_6X6_1000" = some (6, 1000) ∧
    get_dictionary_info "DICT_7X7_50" = some (7, 50) ∧
    get_dictionary_info "DICT_7X7_100" = some (7, 100) ∧
    get_dictionary_info "DICT_7X7_250" = some (7, 250) ∧
    get_dictionary_info "DICT_7X7_1000" = some (7, 1000) ∧
    get_dictionary_info "DICT_ARUCO_ORIGINAL" = some (6, 1024) := by
  decide

end Aruco
